import Mathlib

/-!
Verification of the request-admission and background-scheduling layer of the
graphiti gRPC server: the sliding-window rate limiter
(`src/interceptors/rate_limit_interceptor.py`), the hierarchical timeout
resolution (`src/config/schema.py`, `src/interceptors/timeout_interceptor.py`)
and the per-group async task queue (`src/utils/queue_service.py`).

Time values (`time.monotonic()` readings, timeout seconds) are modelled as
rationals; the source only compares and subtracts these values, so the
rational model is exact for the properties below.
-/

namespace GraphitiSpec

/-! ## Association-list helpers

Python `dict`s are modelled as association lists with insertion-order
semantics: updating an existing key keeps its position, inserting a new key
appends at the end (CPython dict behaviour). -/

def alookup {α : Type} : List (String × α) → String → Option α
  | [], _ => none
  | (k, v) :: rest, key => if k = key then some v else alookup rest key

def aupdate {α : Type} : List (String × α) → String → α → List (String × α)
  | [], key, v => [(key, v)]
  | (k, w) :: rest, key, v =>
      if k = key then (key, v) :: rest else (k, w) :: aupdate rest key v

def akeys {α : Type} (l : List (String × α)) : List String := l.map Prod.fst

theorem alookup_aupdate_self {α : Type} (l : List (String × α)) (k : String) (v : α) :
    alookup (aupdate l k v) k = some v := by
  induction l with
  | nil => simp [aupdate, alookup]
  | cons hd tl ih =>
      by_cases h : hd.1 = k
      · simp [aupdate, alookup, h]
      · simp [aupdate, alookup, h, ih]

theorem alookup_aupdate_ne {α : Type} (l : List (String × α)) (k k' : String) (v : α)
    (h : k ≠ k') : alookup (aupdate l k v) k' = alookup l k' := by
  induction l with
  | nil => simp [aupdate, alookup, h]
  | cons hd tl ih =>
      obtain ⟨a, b⟩ := hd
      by_cases hh : a = k
      · subst hh
        simp [aupdate, alookup, h]
      · simp only [aupdate, if_neg hh, alookup]
        by_cases hk : a = k'
        · simp [hk]
        · simp [hk, ih]

theorem alookup_eq_none_of_not_mem_keys {α : Type} (l : List (String × α)) (k : String)
    (h : k ∉ akeys l) : alookup l k = none := by
  induction l with
  | nil => rfl
  | cons hd tl ih =>
      obtain ⟨a, b⟩ := hd
      simp only [akeys, List.map_cons, List.mem_cons] at h
      push_neg at h
      simp only [alookup, if_neg (fun hh : a = k => h.1 hh.symm)]
      exact ih (by simpa [akeys] using h.2)

theorem alookup_filter_none {α : Type} (l : List (String × α)) (p : String × α → Bool)
    (k : String) (h : alookup l k = none) : alookup (l.filter p) k = none := by
  induction l with
  | nil => simp [alookup]
  | cons hd tl ih =>
      by_cases hk : hd.1 = k
      · simp [alookup, hk] at h
      · simp only [alookup, hk, if_false] at h
        by_cases hp : p hd
        · rw [List.filter_cons_of_pos hp]
          simpa [alookup, hk] using ih h
        · rw [List.filter_cons_of_neg hp]
          exact ih h

theorem alookup_filter_some_of_nodup {α : Type} (l : List (String × α))
    (p : String × α → Bool) (k : String) (v : α) (hnd : (akeys l).Nodup)
    (h : alookup (l.filter p) k = some v) : alookup l k = some v := by
  induction l with
  | nil => simp [alookup] at h
  | cons hd tl ih =>
      obtain ⟨a, b⟩ := hd
      simp only [akeys, List.map_cons, List.nodup_cons] at hnd
      by_cases hk : a = k
      · by_cases hp : p (a, b)
        · rw [List.filter_cons_of_pos hp] at h
          simp only [alookup, hk, if_true] at h ⊢
          exact h
        · -- the head with key k was dropped; keys are nodup, so k is absent
          -- from the tail and the filtered lookup cannot have found anything
          rw [List.filter_cons_of_neg hp] at h
          have hnone : alookup tl k = none :=
            alookup_eq_none_of_not_mem_keys tl k (by
              intro hmem
              exact hnd.1 (by simpa [akeys, hk] using hmem))
          rw [alookup_filter_none tl p k hnone] at h
          exact absurd h (by simp)
      · by_cases hp : p (a, b)
        · rw [List.filter_cons_of_pos hp] at h
          simp only [alookup, hk, if_false] at h ⊢
          exact ih hnd.2 h
        · rw [List.filter_cons_of_neg hp] at h
          simp only [alookup, hk, if_false]
          exact ih hnd.2 h

theorem alookup_filter_keep_of_nodup {α : Type} (l : List (String × α))
    (p : String × α → Bool) (k : String) (v : α) (hnd : (akeys l).Nodup)
    (h : alookup l k = some v) (hp : p (k, v) = true) :
    alookup (l.filter p) k = some v := by
  induction l with
  | nil => simp [alookup] at h
  | cons hd tl ih =>
      obtain ⟨a, b⟩ := hd
      simp only [akeys, List.map_cons, List.nodup_cons] at hnd
      by_cases hk : a = k
      · subst hk
        simp only [alookup, if_true] at h
        have hb : b = v := by simpa using h
        subst hb
        rw [List.filter_cons_of_pos hp]
        simp [alookup]
      · simp only [alookup, hk, if_false] at h
        by_cases hph : p (a, b)
        · rw [List.filter_cons_of_pos hph]
          simp only [alookup, hk, if_false]
          exact ih hnd.2 h
        · rw [List.filter_cons_of_neg hph]
          exact ih hnd.2 h

theorem alookup_mem {α : Type} (l : List (String × α)) (k : String) (v : α)
    (h : alookup l k = some v) : (k, v) ∈ l := by
  induction l with
  | nil => simp [alookup] at h
  | cons hd tl ih =>
      obtain ⟨a, b⟩ := hd
      by_cases hk : a = k
      · subst hk
        simp only [alookup, if_true] at h
        have hb : b = v := by simpa using h
        subst hb
        exact List.mem_cons_self _ _
      · simp only [alookup, hk, if_false] at h
        exact List.mem_cons_of_mem _ (ih h)

theorem akeys_aupdate {α : Type} (l : List (String × α)) (k : String) (v : α) :
    akeys (aupdate l k v) = if k ∈ akeys l then akeys l else akeys l ++ [k] := by
  induction l with
  | nil => simp [aupdate, akeys]
  | cons hd tl ih =>
      obtain ⟨a, b⟩ := hd
      by_cases h : a = k
      · subst h
        simp [aupdate, akeys]
      · rw [show aupdate ((a, b) :: tl) k v = (a, b) :: aupdate tl k v by
          simp [aupdate, h]]
        simp only [akeys, List.map_cons] at ih ⊢
        rw [ih]
        by_cases hm : k ∈ List.map Prod.fst tl
        · simp [hm]
        · have hka : k ≠ a := fun hh => h hh.symm
          simp [hm, hka]

theorem akeys_aupdate_nodup {α : Type} (l : List (String × α)) (k : String) (v : α)
    (hnd : (akeys l).Nodup) : (akeys (aupdate l k v)).Nodup := by
  rw [akeys_aupdate]
  by_cases hm : k ∈ akeys l
  · simpa [hm] using hnd
  · rw [if_neg hm]
    refine List.Nodup.append hnd (by simp) ?_
    intro x hx hxk
    simp only [List.mem_singleton] at hxk
    subst hxk
    exact hm hx

/-! ## Sliding-window rate limiter

Embedding of `src/grpc_server/src/interceptors/rate_limit_interceptor.py`. -/

/-- Embedding of `RateLimitConfig` (rate_limit_interceptor.py lines 19-39);
the `skip_methods` field is not needed by the claims below and is omitted. -/
structure RateLimitConfig where
  enabled : Bool
  window_seconds : ℚ
  max_requests : ℕ
  read_max_requests : Option ℕ
  write_max_requests : Option ℕ
deriving DecidableEq

/-- Limit selection of `SlidingWindowRateLimiter.is_allowed` lines 82-88:
read limit when the call is a read and one is configured, write limit when a
write and one is configured, otherwise the global `max_requests`. -/
def applicableLimit (cfg : RateLimitConfig) (is_read : Bool) : ℕ :=
  match is_read, cfg.read_max_requests, cfg.write_max_requests with
  | true, some r, _ => r
  | false, _, some w => w
  | _, _, _ => cfg.max_requests

/-- Embedding of the per-window body of `SlidingWindowRateLimiter.is_allowed`
(lines 77-105): timestamps not strictly newer than `now - window_seconds` are
dropped, the check rejects when the remaining count reaches the applicable
limit, and otherwise records `now`. Returns (allowed?, updated timestamps). -/
def isAllowedStep (cfg : RateLimitConfig) (is_read : Bool) (timestamps : List ℚ)
    (now : ℚ) : Bool × List ℚ :=
  if cfg.enabled = false then (true, timestamps)
  else
    let window_start := now - cfg.window_seconds
    let kept := timestamps.filter (fun ts => decide (window_start < ts))
    if applicableLimit cfg is_read ≤ kept.length then (false, kept)
    else (true, kept ++ [now])

/-- Sequence of admission checks for one client at the given times, threading
the window state; returns the decisions and the final window. -/
def runChecks (cfg : RateLimitConfig) (is_read : Bool) (timestamps : List ℚ) :
    List ℚ → List Bool × List ℚ
  | [] => ([], timestamps)
  | t :: ts =>
      let step := isAllowedStep cfg is_read timestamps t
      let rest := runChecks cfg is_read step.2 ts
      (step.1 :: rest.1, rest.2)

/-- State of a `SlidingWindowRateLimiter`: the per-client windows dict and the
`_last_cleanup` reading. -/
structure LimiterState where
  windows : List (String × List ℚ)
  last_cleanup : ℚ
deriving DecidableEq

/-- The `_cleanup_interval` constant (rate_limit_interceptor.py line 65). -/
def cleanup_interval : ℚ := 300

/-- Embedding of `SlidingWindowRateLimiter.is_allowed` over the full limiter
state. The `self._windows[client_id]` defaultdict access materialises the
client's entry, and both branches under the lock return directly, so the
`_maybe_cleanup` call at line 108 is never reached: `last_cleanup` and the
other clients' windows are untouched. -/
def is_allowed (cfg : RateLimitConfig) (st : LimiterState) (client_id : String)
    (now : ℚ) (is_read : Bool) : Bool × LimiterState :=
  if cfg.enabled = false then (true, st)
  else
    let w := (alookup st.windows client_id).getD []
    let step := isAllowedStep cfg is_read w now
    (step.1, { st with windows := aupdate st.windows client_id step.2 })

/-- Staleness test of `_maybe_cleanup` line 129: a window is stale when it has
no timestamps or its most recent timestamp is older than the window cutoff. -/
def staleWindow (cfg : RateLimitConfig) (now : ℚ) (timestamps : List ℚ) : Bool :=
  match timestamps.max? with
  | none => true
  | some m => decide (m < now - cfg.window_seconds)

/-- Embedding of `SlidingWindowRateLimiter._maybe_cleanup` (lines 110-136).
In the source its only call site (line 108) is unreachable, because both
branches of the preceding `async with window.lock` block return first. -/
def maybe_cleanup (cfg : RateLimitConfig) (st : LimiterState) (now : ℚ) :
    LimiterState :=
  if now - st.last_cleanup < cleanup_interval then st
  else
    { last_cleanup := now,
      windows := st.windows.filter (fun p => !staleWindow cfg now p.2) }

/-- Embedding of `SlidingWindowRateLimiter.get_client_usage` (lines 138-155):
returns (current in-window count, configured global `max_requests`). -/
def get_client_usage (cfg : RateLimitConfig) (st : LimiterState)
    (client_id : String) (now : ℚ) : ℕ × ℕ :=
  match alookup st.windows client_id with
  | none => (0, cfg.max_requests)
  | some ts =>
      ((ts.filter (fun t => decide (now - cfg.window_seconds < t))).length,
       cfg.max_requests)

/-- gRPC status codes relevant to the admission layer. -/
inductive StatusCode
  | resource_exhausted
  | deadline_exceeded
  | internal
deriving DecidableEq

/-- Data carried by the abort issued on a rate-limit rejection: the status
code, the limit quoted in the message, and the window length quoted. -/
structure AbortInfo where
  code : StatusCode
  limit : ℕ
  window_seconds : ℚ
deriving DecidableEq

/-- Embedding of `RateLimitInterceptor._check_rate_limit` (lines 346-376):
runs the limiter; on rejection aborts with RESOURCE_EXHAUSTED quoting the
`max_req` value from `get_client_usage` (evaluated on the post-check state)
and the configured window. Returns (abort issued?, allowed?, new state). -/
def check_rate_limit (cfg : RateLimitConfig) (st : LimiterState)
    (client_id : String) (now : ℚ) (is_read : Bool) :
    Option AbortInfo × Bool × LimiterState :=
  let r := is_allowed cfg st client_id now is_read
  if r.1 then (none, true, r.2)
  else
    let usage := get_client_usage cfg r.2 client_id now
    (some { code := StatusCode.resource_exhausted, limit := usage.2,
            window_seconds := cfg.window_seconds },
     false, r.2)

/-! ## Hierarchical timeout resolution

Embedding of `src/grpc_server/src/config/schema.py` and
`src/grpc_server/src/interceptors/timeout_interceptor.py`. -/

/-- Embedding of `ServiceTimeoutConfig` (schema.py lines 102-131). -/
structure ServiceTimeoutConfig where
  default : ℚ
  methods : List (String × ℚ)
deriving DecidableEq

/-- Embedding of `ServiceTimeoutConfig.get_timeout` (line 131):
`self.methods.get(method_name, self.default)`. -/
def ServiceTimeoutConfig.get_timeout (c : ServiceTimeoutConfig)
    (method_name : String) : ℚ :=
  (alookup c.methods method_name).getD c.default

/-- Embedding of `TimeoutConfig` (schema.py lines 134-185). -/
structure TimeoutConfig where
  enabled : Bool
  default : ℚ
  services : List (String × ServiceTimeoutConfig)
deriving DecidableEq

/-- Embedding of `TimeoutConfig.get_timeout` (lines 168-185): service entry if
present (delegating to its per-method resolution), else the global default. -/
def TimeoutConfig.get_timeout (c : TimeoutConfig)
    (service_name method_name : String) : ℚ :=
  match alookup c.services service_name with
  | some sc => sc.get_timeout method_name
  | none => c.default

/-- Embedding of `TimeoutInterceptor._get_effective_timeout`
(timeout_interceptor.py lines 308-337). `time_remaining = none` models both an
absent caller deadline and a failing `context.time_remaining()` call. -/
def get_effective_timeout (server_timeout : ℚ) (time_remaining : Option ℚ) : ℚ :=
  if server_timeout = 0 then 0
  else
    match time_remaining with
    | some tr => if 0 < tr then min server_timeout tr else server_timeout
    | none => server_timeout

/-- Sample timeout policy from the spec scenario: global default 30,
service "Ingest" with default 120 and method overrides Bulk=600, Stream=0. -/
def samplePolicy : TimeoutConfig :=
  { enabled := true, default := 30,
    services := [("Ingest", { default := 120,
                              methods := [("Bulk", 600), ("Stream", 0)] })] }

/-- C2: timeout resolution is a pure function of (service, method, policy):
the method-level override wins if configured, else the service-level default
if the service is configured, else the global default; and on the scenario
policy {default 30, Ingest: {default 120, Bulk: 600, Stream: 0}} it yields
Ingest/Single = 120, Ingest/Bulk = 600, Ingest/Stream = 0, Other/X = 30. -/
theorem timeout_resolution_hierarchy :
    (∀ (c : TimeoutConfig) (s m : String) (sc : ServiceTimeoutConfig) (t : ℚ),
        alookup c.services s = some sc → alookup sc.methods m = some t →
        c.get_timeout s m = t) ∧
    (∀ (c : TimeoutConfig) (s m : String) (sc : ServiceTimeoutConfig),
        alookup c.services s = some sc → alookup sc.methods m = none →
        c.get_timeout s m = sc.default) ∧
    (∀ (c : TimeoutConfig) (s m : String),
        alookup c.services s = none → c.get_timeout s m = c.default) ∧
    samplePolicy.get_timeout "Ingest" "Single" = 120 ∧
    samplePolicy.get_timeout "Ingest" "Bulk" = 600 ∧
    samplePolicy.get_timeout "Ingest" "Stream" = 0 ∧
    samplePolicy.get_timeout "Other" "X" = 30 := by
  refine ⟨?_, ?_, ?_, by decide, by decide, by decide, by decide⟩
  · intro c s m sc t hs hm
    simp [TimeoutConfig.get_timeout, ServiceTimeoutConfig.get_timeout, hs, hm]
  · intro c s m sc hs hm
    simp [TimeoutConfig.get_timeout, ServiceTimeoutConfig.get_timeout, hs, hm]
  · intro c s m hs
    simp [TimeoutConfig.get_timeout, hs]

/-- Witness for `timeout_resolution_hierarchy`: the three hierarchy clauses
evaluated on the concrete scenario policy. -/
theorem timeout_resolution_hierarchy_witness :
    samplePolicy.get_timeout "Ingest" "Bulk" = 600 ∧
    samplePolicy.get_timeout "Ingest" "Single" = 120 ∧
    samplePolicy.get_timeout "Other" "X" = 30 :=
  ⟨timeout_resolution_hierarchy.1 samplePolicy "Ingest" "Bulk"
      { default := 120, methods := [("Bulk", 600), ("Stream", 0)] } 600
      (by decide) (by decide),
   timeout_resolution_hierarchy.2.1 samplePolicy "Ingest" "Single"
      { default := 120, methods := [("Bulk", 600), ("Stream", 0)] }
      (by decide) (by decide),
   timeout_resolution_hierarchy.2.2.1 samplePolicy "Other" "X" (by decide)⟩

/-- C3: the effective timeout equals min(server, remaining) when a positive
caller deadline is present, equals the server timeout when the deadline is
absent (or not retrievable) or non-positive, and equals 0 whenever the server
timeout is 0, irrespective of the caller deadline. -/
theorem effective_timeout_reconciliation :
    (∀ (t d : ℚ), 0 < d →
        get_effective_timeout t (some d) = min t d) ∧
    (∀ t : ℚ, get_effective_timeout t none = t) ∧
    (∀ (t d : ℚ), d ≤ 0 → get_effective_timeout t (some d) = t) ∧
    (∀ d : Option ℚ, get_effective_timeout 0 d = 0) := by
  refine ⟨?_, ?_, ?_, ?_⟩
  · intro t d hd
    by_cases ht : t = 0
    · subst ht
      simp [get_effective_timeout, le_of_lt hd]
    · simp [get_effective_timeout, ht, hd]
  · intro t
    by_cases ht : t = 0 <;> simp [get_effective_timeout, ht]
  · intro t d hd
    by_cases ht : t = 0
    · subst ht
      simp [get_effective_timeout, le_antisymm hd]
    · simp [get_effective_timeout, ht, not_lt.mpr hd]
  · intro d
    simp [get_effective_timeout]

/-- Witness for `effective_timeout_reconciliation`: concrete reconciliations
with server timeout 30 and caller deadlines 10, absent, and -1. -/
theorem effective_timeout_reconciliation_witness :
    get_effective_timeout 30 (some 10) = min 30 10 ∧
    get_effective_timeout 30 none = 30 ∧
    get_effective_timeout 30 (some (-1)) = 30 ∧
    get_effective_timeout 0 (some 10) = 0 :=
  ⟨effective_timeout_reconciliation.1 30 10 (by norm_num),
   effective_timeout_reconciliation.2.1 30,
   effective_timeout_reconciliation.2.2.1 30 (-1) (by norm_num),
   effective_timeout_reconciliation.2.2.2 (some 10)⟩

theorem filter_window_eq_self (W now : ℚ) (l : List ℚ)
    (h : ∀ a ∈ l, now - a < W) :
    l.filter (fun ts => decide (now - W < ts)) = l := by
  refine List.filter_eq_self.mpr ?_
  intro a ha
  have := h a ha
  simp only [decide_eq_true_eq]
  linarith

theorem runChecks_admit_aux (cfg : RateLimitConfig) (is_read : Bool)
    (h : cfg.enabled = true) :
    ∀ (l w : List ℚ),
      (∀ a ∈ w ++ l, ∀ b ∈ w ++ l, b - a < cfg.window_seconds) →
      (w ++ l).length ≤ applicableLimit cfg is_read →
      runChecks cfg is_read w l = (List.replicate l.length true, w ++ l) := by
  intro l
  induction l with
  | nil =>
      intro w _ _
      simp [runChecks]
  | cons t ts ih =>
      intro w hspread hlen
      have htmem : t ∈ w ++ t :: ts := by simp
      have hkeep : w.filter (fun ts => decide (t - cfg.window_seconds < ts)) = w := by
        refine filter_window_eq_self _ t w ?_
        intro a ha
        exact hspread a (List.mem_append_left _ ha) t htmem
      have hwlen : w.length < applicableLimit cfg is_read := by
        have hl2 : (w ++ t :: ts).length = w.length + ts.length + 1 := by
          simp [List.length_append]
          omega
        omega
      have hstep : isAllowedStep cfg is_read w t = (true, w ++ [t]) := by
        simp only [isAllowedStep, h]
        rw [if_neg (by simp)]
        simp only [hkeep]
        rw [if_neg (by omega)]
      have hassoc : (w ++ [t]) ++ ts = w ++ t :: ts := by
        simp
      have hrest : runChecks cfg is_read (w ++ [t]) ts =
          (List.replicate ts.length true, w ++ t :: ts) := by
        rw [show w ++ t :: ts = (w ++ [t]) ++ ts from hassoc.symm] at hspread hlen ⊢
        exact ih (w ++ [t]) hspread hlen
      simp [runChecks, hstep, hrest, List.replicate_succ]

/-- C1: the sliding-window admission check. Limit selection: the read limit
applies to reads when configured, the write limit to writes when configured,
the global limit otherwise. Each check keeps exactly the timestamps strictly
inside the trailing window, rejects when their count has reached the
applicable limit, and otherwise records `now` and admits. Consequently, from
an empty window, N = applicableLimit checks whose times all lie within one
window-length interval all succeed; one more check within the same interval is
rejected; and once the oldest recorded timestamp has aged out past the window
length, capacity for one more call is restored. -/
theorem sliding_window_rate_limit :
    (∀ (cfg : RateLimitConfig) (r : ℕ), cfg.read_max_requests = some r →
        applicableLimit cfg true = r) ∧
    (∀ (cfg : RateLimitConfig) (w : ℕ), cfg.write_max_requests = some w →
        applicableLimit cfg false = w) ∧
    (∀ cfg : RateLimitConfig, cfg.read_max_requests = none →
        applicableLimit cfg true = cfg.max_requests) ∧
    (∀ cfg : RateLimitConfig, cfg.write_max_requests = none →
        applicableLimit cfg false = cfg.max_requests) ∧
    (∀ (cfg : RateLimitConfig) (is_read : Bool) (ts : List ℚ) (now : ℚ),
        cfg.enabled = true →
        isAllowedStep cfg is_read ts now =
          (if applicableLimit cfg is_read ≤
              (ts.filter (fun t => decide (now - cfg.window_seconds < t))).length
           then (false, ts.filter (fun t => decide (now - cfg.window_seconds < t)))
           else (true,
             ts.filter (fun t => decide (now - cfg.window_seconds < t)) ++ [now]))) ∧
    (∀ (cfg : RateLimitConfig) (is_read : Bool) (l : List ℚ),
        cfg.enabled = true →
        (∀ a ∈ l, ∀ b ∈ l, b - a < cfg.window_seconds) →
        l.length ≤ applicableLimit cfg is_read →
        runChecks cfg is_read [] l = (List.replicate l.length true, l)) ∧
    (∀ (cfg : RateLimitConfig) (is_read : Bool) (l : List ℚ) (now : ℚ),
        cfg.enabled = true →
        l.length = applicableLimit cfg is_read →
        (∀ a ∈ l, now - a < cfg.window_seconds) →
        isAllowedStep cfg is_read l now = (false, l)) ∧
    (∀ (cfg : RateLimitConfig) (is_read : Bool) (t : ℚ) (rest : List ℚ)
        (now : ℚ),
        cfg.enabled = true →
        (t :: rest).length = applicableLimit cfg is_read →
        cfg.window_seconds ≤ now - t →
        (∀ a ∈ rest, now - a < cfg.window_seconds) →
        (isAllowedStep cfg is_read (t :: rest) now).1 = true) := by
  refine ⟨?_, ?_, ?_, ?_, ?_, ?_, ?_, ?_⟩
  · intro cfg r hr
    simp [applicableLimit, hr]
  · intro cfg w hw
    cases hrd : cfg.read_max_requests <;> simp [applicableLimit, hw]
  · intro cfg hr
    simp [applicableLimit, hr]
  · intro cfg hw
    cases hrd : cfg.read_max_requests <;> simp [applicableLimit, hw]
  · intro cfg is_read ts now h
    simp only [isAllowedStep, h]
    rw [if_neg (by simp)]
  · intro cfg is_read l h hspread hlen
    have := runChecks_admit_aux cfg is_read h l []
    simpa using this (by simpa using hspread) (by simpa using hlen)
  · intro cfg is_read l now h hlen hin
    simp only [isAllowedStep, h]
    rw [if_neg (by simp)]
    rw [filter_window_eq_self _ now l hin]
    rw [if_pos (by omega)]
  · intro cfg is_read t rest now h hlen hold hin
    simp only [isAllowedStep, h]
    rw [if_neg (by simp)]
    have hdrop : ¬ (now - cfg.window_seconds < t) := by linarith
    rw [List.filter_cons_of_neg (by simpa using hdrop)]
    rw [filter_window_eq_self _ now rest hin]
    have : rest.length < applicableLimit cfg is_read := by
      simp only [List.length_cons] at hlen
      omega
    rw [if_neg (by omega)]

/-- Concrete configuration for the rate-limit witnesses: enabled, window 60
seconds, global limit 2 requests, no separate read/write limits. -/
def sampleRateCfg : RateLimitConfig :=
  { enabled := true, window_seconds := 60, max_requests := 2,
    read_max_requests := none, write_max_requests := none }

/-- Witness for `sliding_window_rate_limit`: with max_requests = 2 and window
60, two back-to-back checks at times 0 and 30 are admitted, a third at 59 is
rejected, and a check at 61 (after the timestamp 0 aged out) is admitted. -/
theorem sliding_window_rate_limit_witness :
    applicableLimit sampleRateCfg true = 2 ∧
    runChecks sampleRateCfg true [] [0, 30] = ([true, true], [0, 30]) ∧
    isAllowedStep sampleRateCfg true [0, 30] 59 = (false, [0, 30]) ∧
    (isAllowedStep sampleRateCfg true [0, 30] 61).1 = true :=
  ⟨sliding_window_rate_limit.2.2.1 sampleRateCfg rfl,
   sliding_window_rate_limit.2.2.2.2.2.1 sampleRateCfg true [0, 30] rfl
     (by intro a ha b hb; fin_cases ha <;> fin_cases hb <;>
           norm_num [sampleRateCfg])
     (by norm_num [sampleRateCfg, applicableLimit]),
   sliding_window_rate_limit.2.2.2.2.2.2.1 sampleRateCfg true [0, 30] 59 rfl
     (by norm_num [sampleRateCfg, applicableLimit])
     (by intro a ha; fin_cases ha <;> norm_num [sampleRateCfg]),
   sliding_window_rate_limit.2.2.2.2.2.2.2 sampleRateCfg true 0 [30] 61 rfl
     (by norm_num [sampleRateCfg, applicableLimit])
     (by norm_num [sampleRateCfg])
     (by intro a ha; fin_cases ha <;> norm_num [sampleRateCfg])⟩

/-- C4 (documenting the defect): an admission check never triggers a cleanup
pass, even when the cleanup interval has long elapsed — the
`_maybe_cleanup` call at rate_limit_interceptor.py line 108 sits after the
lock block whose branches both return, so `is_allowed` leaves `last_cleanup`
unchanged and never removes any other client's window. The second conjunct
records what `_maybe_cleanup` would do if it were reached: drop exactly the
windows that are empty or whose most recent timestamp is older than the
window cutoff. -/
theorem rate_limiter_cleanup_never_runs :
    (∀ (cfg : RateLimitConfig) (st : LimiterState) (client_id : String)
        (now : ℚ) (is_read : Bool),
        cleanup_interval ≤ now - st.last_cleanup →
        (is_allowed cfg st client_id now is_read).2.last_cleanup =
            st.last_cleanup ∧
        ∀ c, c ≠ client_id →
          alookup (is_allowed cfg st client_id now is_read).2.windows c =
            alookup st.windows c) ∧
    (∀ (cfg : RateLimitConfig) (st : LimiterState) (now : ℚ),
        cleanup_interval ≤ now - st.last_cleanup →
        (maybe_cleanup cfg st now).windows =
          st.windows.filter (fun p => !staleWindow cfg now p.2)) := by
  constructor
  · intro cfg st client_id now is_read _
    by_cases he : cfg.enabled = false
    · simp [is_allowed, he]
    · refine ⟨by simp [is_allowed, he], ?_⟩
      intro c hc
      simp only [is_allowed, he, if_false]
      exact alookup_aupdate_ne _ _ _ _ (Ne.symm hc)
  · intro cfg st now h
    rw [maybe_cleanup, if_neg (not_lt.mpr h)]

/-- Witness for `rate_limiter_cleanup_never_runs`: with the cleanup interval
(300 s) elapsed and a stale idle window present, a check for another client
leaves `last_cleanup` and the stale window untouched, while `_maybe_cleanup`
itself (were it reachable) would drop the stale window. -/
theorem rate_limiter_cleanup_never_runs_witness :
    (is_allowed sampleRateCfg ⟨[("idle", [0])], 0⟩ "active" 1000 true).2.last_cleanup
        = (0 : ℚ) ∧
    alookup (is_allowed sampleRateCfg ⟨[("idle", [0])], 0⟩ "active" 1000 true).2.windows
        "idle" = some [0] ∧
    (maybe_cleanup sampleRateCfg ⟨[("idle", [0])], 0⟩ 1000).windows =
      List.filter (fun p => !staleWindow sampleRateCfg 1000 p.2) [("idle", [0])] := by
  have h1 := rate_limiter_cleanup_never_runs.1 sampleRateCfg
    ⟨[("idle", [0])], 0⟩ "active" 1000 true (by norm_num [cleanup_interval])
  have h2 := rate_limiter_cleanup_never_runs.2 sampleRateCfg
    ⟨[("idle", [0])], 0⟩ 1000 (by norm_num [cleanup_interval])
  exact ⟨h1.1, h1.2 "idle" (by decide), h2⟩

theorem get_client_usage_snd (cfg : RateLimitConfig) (st : LimiterState)
    (client_id : String) (now : ℚ) :
    (get_client_usage cfg st client_id now).2 = cfg.max_requests := by
  cases h : alookup st.windows client_id <;> simp [get_client_usage, h]

/-- Counterexample to C7 as stated: with global max_requests = 2 but a
configured read limit of 1, a read call rejected at the read limit is aborted
with a message quoting limit 2 — not the limit (1) that applied to the call
(`get_client_usage` always returns `config.max_requests`). -/
theorem rate_limit_reject_message_counterexample :
    (check_rate_limit
        { enabled := true, window_seconds := 60, max_requests := 2,
          read_max_requests := some 1, write_max_requests := none }
        ⟨[("c", [10])], 0⟩ "c" 20 true).2.1 = false ∧
    (check_rate_limit
        { enabled := true, window_seconds := 60, max_requests := 2,
          read_max_requests := some 1, write_max_requests := none }
        ⟨[("c", [10])], 0⟩ "c" 20 true).1 =
      some { code := StatusCode.resource_exhausted, limit := 2,
             window_seconds := 60 } ∧
    applicableLimit
        { enabled := true, window_seconds := 60, max_requests := 2,
          read_max_requests := some 1, write_max_requests := none } true = 1 ∧
    (2 : ℕ) ≠ 1 := by
  refine ⟨?_, ?_, rfl, by decide⟩ <;>
    norm_num [check_rate_limit, is_allowed, isAllowedStep, applicableLimit,
      get_client_usage, alookup, aupdate]

/-- C7 (amended): every rejected admission check is aborted with the distinct
RESOURCE_EXHAUSTED outcome — never an internal error — and the diagnostic
carries the configured global `max_requests` (which equals the limit applied
to the call only when no operation-specific limit applied) together with the
configured window length; admitted checks issue no abort. -/
theorem rate_limit_reject_resource_exhausted
    (cfg : RateLimitConfig) (st : LimiterState) (client_id : String)
    (now : ℚ) (is_read : Bool) :
    ((check_rate_limit cfg st client_id now is_read).2.1 = false →
      (check_rate_limit cfg st client_id now is_read).1 =
        some { code := StatusCode.resource_exhausted,
               limit := cfg.max_requests,
               window_seconds := cfg.window_seconds }) ∧
    ((check_rate_limit cfg st client_id now is_read).2.1 = true →
      (check_rate_limit cfg st client_id now is_read).1 = none) ∧
    (∀ info, (check_rate_limit cfg st client_id now is_read).1 = some info →
      info.code = StatusCode.resource_exhausted ∧
      info.code ≠ StatusCode.internal) := by
  cases hr : (is_allowed cfg st client_id now is_read).1
  · refine ⟨?_, ?_, ?_⟩
    · intro _
      simp [check_rate_limit, hr, get_client_usage_snd]
    · intro hc
      simp [check_rate_limit, hr] at hc
    · intro info hinfo
      simp [check_rate_limit, hr, get_client_usage_snd] at hinfo
      rw [← hinfo]
      exact ⟨rfl, by simp⟩
  · refine ⟨?_, ?_, ?_⟩
    · intro hc
      simp [check_rate_limit, hr] at hc
    · intro _
      simp [check_rate_limit, hr]
    · intro info hinfo
      simp [check_rate_limit, hr] at hinfo

/-- Witness for `rate_limit_reject_resource_exhausted`: the rejected read call
of the counterexample configuration is aborted RESOURCE_EXHAUSTED quoting the
global limit 2 and window 60. -/
theorem rate_limit_reject_resource_exhausted_witness :
    (check_rate_limit
        { enabled := true, window_seconds := 60, max_requests := 2,
          read_max_requests := some 1, write_max_requests := none }
        ⟨[("c", [10])], 0⟩ "c" 20 true).1 =
      some { code := StatusCode.resource_exhausted, limit := 2,
             window_seconds := 60 } :=
  (rate_limit_reject_resource_exhausted
      { enabled := true, window_seconds := 60, max_requests := 2,
        read_max_requests := some 1, write_max_requests := none }
      ⟨[("c", [10])], 0⟩ "c" 20 true).1
    (by norm_num [check_rate_limit, is_allowed, isAllowedStep, applicableLimit,
          get_client_usage, alookup, aupdate])

/-! ## Per-group async task queue

Embedding of `src/grpc_server/src/utils/queue_service.py`. A submitted
coroutine is modelled by its outcome when awaited: a result value, a raised
exception message, or cancellation. The group-keyed dict of `asyncio.Queue`s
is modelled as one group-tagged FIFO list (per-group order is the subsequence
of matching tags, which is exactly the per-group queue content). Python
object identity of `QueuedTask` records is modelled by a generation number:
`add_task` stamps a fresh generation, and the worker's mutations of the task
object it fetched are visible through the registry only while the registry
still holds that same generation. -/

/-- Outcome of awaiting a submitted coroutine. -/
inductive UnitOutcome
  | ok (v : ℕ)
  | err (msg : String)
  | cancelled
deriving DecidableEq

/-- Embedding of `TaskStatus` (queue_service.py lines 15-21). -/
inductive TaskStatus
  | pending
  | processing
  | completed
  | failed
deriving DecidableEq

/-- Embedding of `QueuedTask` (lines 24-35); `gen` models object identity. -/
structure QueuedTask where
  id : String
  group_id : String
  created_at : ℚ
  status : TaskStatus
  started_at : Option ℚ
  completed_at : Option ℚ
  error : Option String
  result : Option ℕ
  gen : ℕ
deriving DecidableEq

/-- One `(task_id, coro)` entry of a group's `asyncio.Queue`, with its group
tag. -/
structure QueueItem where
  group_id : String
  task_id : String
  unit : UnitOutcome
deriving DecidableEq

/-- The unit a group's worker has fetched and is currently executing: its
task id, the generation of the registry object it fetched, and the coroutine
outcome. -/
structure InFlight where
  task_id : String
  gen : ℕ
  unit : UnitOutcome
deriving DecidableEq

/-- State of a `QueueService`: the tagged FIFO, the `_tasks` registry, the
per-group in-flight units, the `_running` flag, and the generation counter. -/
structure QState where
  queue : List QueueItem
  tasks : List (String × QueuedTask)
  current : List (String × InFlight)
  running : Bool
  nextGen : ℕ
deriving DecidableEq

/-- A freshly constructed `QueueService` (lines 53-67). -/
def initQ : QState :=
  { queue := [], tasks := [], current := [], running := true, nextGen := 0 }

/-- Embedding of `QueueService.add_task` (lines 69-114): raises when shut
down, otherwise registers a fresh Pending task under the id (unconditionally
replacing any existing record) and enqueues the unit on the group's FIFO. -/
def add_task (s : QState) (group_id : String) (coro : UnitOutcome)
    (task_id : String) (now : ℚ) : Except String QState :=
  if s.running = false then Except.error "Queue service has been shut down"
  else
    let task : QueuedTask :=
      { id := task_id, group_id := group_id, created_at := now,
        status := TaskStatus.pending, started_at := none, completed_at := none,
        error := none, result := none, gen := s.nextGen }
    Except.ok { s with
      tasks := aupdate s.tasks task_id task,
      queue := s.queue ++ [⟨group_id, task_id, coro⟩],
      nextGen := s.nextGen + 1 }

/-- First queued unit of group `g` (the head of that group's FIFO). -/
def frontFor : List QueueItem → String → Option QueueItem
  | [], _ => none
  | item :: rest, g =>
      if item.group_id = g then some item else frontFor rest g

/-- The queue with group `g`'s first unit removed. -/
def popFor : List QueueItem → String → List QueueItem
  | [], _ => []
  | item :: rest, g =>
      if item.group_id = g then rest else item :: popFor rest g

/-- Observable scheduling events. -/
inductive Event
  | submitted (task_id : String)
  | submitRejected (group_id : String)
  | started (task_id : String)
  | finished (task_id : String) (ok : Bool)
deriving DecidableEq

/-- First half of the `_process_queue` loop body (lines 127-147): while
running and with no unit in flight for the group, fetch the group's next
queued unit; if its id is missing from the registry, skip it (warning path,
line 140); otherwise mark the fetched task Processing with a start timestamp
and hold the unit in flight. -/
def processStart (s : QState) (g : String) (now : ℚ) : QState × List Event :=
  if s.running = false then (s, [])
  else
    match alookup s.current g with
    | some _ => (s, [])
    | none =>
        match frontFor s.queue g with
        | none => (s, [])
        | some item =>
            let s1 := { s with queue := popFor s.queue g }
            match alookup s.tasks item.task_id with
            | none => (s1, [])
            | some t =>
                let t1 := { t with status := TaskStatus.processing,
                                   started_at := some now }
                ({ s1 with
                    tasks := aupdate s1.tasks item.task_id t1,
                    current := aupdate s1.current g
                      ⟨item.task_id, t.gen, item.unit⟩ },
                 [Event.started item.task_id])

/-- Terminal update of the fetched task object (lines 149-165): Completed
with the result, or Failed with the exception message, or Failed with the
cancellation marker. -/
def finishTask (t : QueuedTask) (u : UnitOutcome) (now : ℚ) : QueuedTask :=
  match u with
  | UnitOutcome.ok v =>
      { t with status := TaskStatus.completed, completed_at := some now,
               result := some v }
  | UnitOutcome.err m =>
      { t with status := TaskStatus.failed, completed_at := some now,
               error := some m }
  | UnitOutcome.cancelled =>
      { t with status := TaskStatus.failed, completed_at := some now,
               error := some "Task was cancelled" }

/-- Whether awaiting the unit produced a result (rather than an exception or
cancellation). -/
def UnitOutcome.isOk : UnitOutcome → Bool
  | UnitOutcome.ok _ => true
  | _ => false

/-- Second half of the `_process_queue` loop body: resolve the in-flight unit
of group `g` with outcome `u`, writing through to the registry only if it
still holds the object the worker fetched (same generation). -/
def resolveCurrent (s : QState) (g : String) (u : UnitOutcome) (now : ℚ) :
    QState × List Event :=
  match alookup s.current g with
  | none => (s, [])
  | some fl =>
      let tasks1 :=
        match alookup s.tasks fl.task_id with
        | some t =>
            if t.gen = fl.gen then
              aupdate s.tasks fl.task_id (finishTask t u now)
            else s.tasks
        | none => s.tasks
      ({ s with
          tasks := tasks1,
          current := s.current.filter (fun p => decide (p.1 ≠ g)) },
       [Event.finished fl.task_id u.isOk])

/-- The worker finishes the awaited unit with the unit's own outcome
(lines 150-165). -/
def processFinish (s : QState) (g : String) (now : ℚ) : QState × List Event :=
  match alookup s.current g with
  | none => (s, [])
  | some fl => resolveCurrent s g fl.unit now

/-- Forced cancellation of a worker mid-unit (`shutdown` lines 311-313
cancelling the worker makes the awaited coroutine raise CancelledError,
handled at lines 155-160): the in-flight task is recorded Failed with the
cancellation marker. -/
def cancelWorker (s : QState) (g : String) (now : ℚ) : QState × List Event :=
  resolveCurrent s g UnitOutcome.cancelled now

/-- Embedding of the first effect of `QueueService.shutdown` (line 293). -/
def shutdown (s : QState) : QState := { s with running := false }

/-- Embedding of `QueueService.get_task_status` (lines 167-176). -/
def get_task_status (s : QState) (task_id : String) : Option QueuedTask :=
  alookup s.tasks task_id

/-- The status recorded under a task id, if any. -/
def statusOf (s : QState) (task_id : String) : Option TaskStatus :=
  (get_task_status s task_id).map (fun t => t.status)

/-- Return value of `get_group_stats` (lines 178-195), one field per key of
the returned dict. -/
structure GroupStats where
  total : ℕ
  pending : ℕ
  processing : ℕ
  completed : ℕ
  failed : ℕ
  queue_size : ℕ
deriving DecidableEq

/-- Count of a group's tasks in a given status. -/
def countStatus (ts : List QueuedTask) (st : TaskStatus) : ℕ :=
  (ts.filter (fun t => decide (t.status = st))).length

/-- Embedding of `QueueService.get_group_stats` (lines 178-195). -/
def get_group_stats (s : QState) (group_id : String) : GroupStats :=
  let group_tasks :=
    (s.tasks.map (fun p => p.2)).filter (fun t => decide (t.group_id = group_id))
  { total := group_tasks.length,
    pending := countStatus group_tasks TaskStatus.pending,
    processing := countStatus group_tasks TaskStatus.processing,
    completed := countStatus group_tasks TaskStatus.completed,
    failed := countStatus group_tasks TaskStatus.failed,
    queue_size :=
      (s.queue.filter (fun i => decide (i.group_id = group_id))).length }

/-- Whether a status is terminal (Completed or Failed). -/
def terminalStatus : TaskStatus → Bool
  | TaskStatus.completed => true
  | TaskStatus.failed => true
  | _ => false

/-- Removal test of `clear_completed_tasks` (lines 255-281): terminal, of the
selected group (all groups when none is given), with a completion timestamp
at least `max_age_seconds` old. -/
def shouldClear (t : QueuedTask) (group_id : Option String)
    (max_age_seconds now : ℚ) : Bool :=
  (match group_id with
   | some g => decide (t.group_id = g)
   | none => true) &&
  terminalStatus t.status &&
  (match t.completed_at with
   | some c => decide (max_age_seconds ≤ now - c)
   | none => false)

/-- Embedding of `QueueService.clear_completed_tasks` (lines 255-281). -/
def clear_completed_tasks (s : QState) (group_id : Option String)
    (max_age_seconds now : ℚ) : QState :=
  { s with tasks :=
      s.tasks.filter (fun p => !shouldClear p.2 group_id max_age_seconds now) }

/-- Inner polling loop of `wait_for_task` (lines 246-251) against a fixed
task record, with an explicit iteration bound; the counter is the number of
0.1 s sleeps performed so far. Returns the task and the total sleep count. -/
def waitLoop (t : QueuedTask) (timeout : Option ℚ) :
    ℕ → ℕ → Option QueuedTask × ℕ
  | 0, n => (some t, n)
  | fuel + 1, n =>
      if terminalStatus t.status then (some t, n)
      else
        match timeout with
        | some tmo =>
            if tmo ≤ (n : ℚ) * (1 / 10) then (some t, n)
            else waitLoop t timeout fuel (n + 1)
        | none => waitLoop t timeout fuel (n + 1)

/-- Embedding of `QueueService.wait_for_task` (lines 230-253) against a fixed
state: an unregistered id returns `none` before the loop is ever entered. -/
def wait_for_task (s : QState) (task_id : String) (timeout : Option ℚ)
    (fuel : ℕ) : Option QueuedTask × ℕ :=
  match alookup s.tasks task_id with
  | none => (none, 0)
  | some t => waitLoop t timeout fuel 0

/-- Queue-service operations, each carrying the wall-clock reading at which
it runs. `submit` is `add_task`; `wstart`/`wfinish` are the two halves of a
group worker's loop body; `wcancel` is a shutdown-forced worker cancellation;
`clear` is `clear_completed_tasks`; `close` is `shutdown`; `waitFor` is the
read-only `wait_for_task`. -/
inductive QOp
  | submit (group_id task_id : String) (u : UnitOutcome) (now : ℚ)
  | wstart (group_id : String) (now : ℚ)
  | wfinish (group_id : String) (now : ℚ)
  | wcancel (group_id : String) (now : ℚ)
  | clear (group_id : Option String) (max_age now : ℚ)
  | close
  | waitFor (task_id : String)
deriving DecidableEq

/-- Apply one operation, returning the new state and the emitted events. -/
def applyOp (s : QState) : QOp → QState × List Event
  | QOp.submit g id u now =>
      match add_task s g u id now with
      | Except.ok s1 => (s1, [Event.submitted id])
      | Except.error _ => (s, [Event.submitRejected g])
  | QOp.wstart g now => processStart s g now
  | QOp.wfinish g now => processFinish s g now
  | QOp.wcancel g now => cancelWorker s g now
  | QOp.clear og age now => (clear_completed_tasks s og age now, [])
  | QOp.close => (shutdown s, [])
  | QOp.waitFor _ => (s, [])

/-- Apply a list of operations, concatenating the emitted events. -/
def applyOps (s : QState) : List QOp → QState × List Event
  | [] => (s, [])
  | op :: rest =>
      let r1 := applyOp s op
      let r2 := applyOps r1.1 rest
      (r2.1, r1.2 ++ r2.2)

theorem alookup_filterout_key {α : Type} (l : List (String × α)) (g : String) :
    alookup (l.filter (fun p => decide (p.1 ≠ g))) g = none := by
  apply alookup_eq_none_of_not_mem_keys
  intro hmem
  simp only [akeys, List.mem_map, List.mem_filter, decide_eq_true_eq] at hmem
  obtain ⟨p, ⟨_, hpn⟩, hpe⟩ := hmem
  exact hpn hpe

/-- C9: a Submit with an id that already has a record — of any status —
unconditionally replaces that record with a fresh Pending task for the given
group (losing the previous status, timestamps, result and error), enqueues
the unit, and StatusOf immediately reports Pending. -/
theorem submit_replaces_existing_task
    (s : QState) (g : String) (u : UnitOutcome) (id : String) (now : ℚ)
    (old : QueuedTask) (hrun : s.running = true)
    (hold : alookup s.tasks id = some old) :
    ∃ s1, add_task s g u id now = Except.ok s1 ∧
      alookup s1.tasks id = some
        { id := id, group_id := g, created_at := now,
          status := TaskStatus.pending, started_at := none,
          completed_at := none, error := none, result := none,
          gen := s.nextGen } ∧
      statusOf s1 id = some TaskStatus.pending ∧
      s1.queue = s.queue ++ [⟨g, id, u⟩] := by
  have hadd : add_task s g u id now = Except.ok { s with
      tasks := aupdate s.tasks id
        { id := id, group_id := g, created_at := now,
          status := TaskStatus.pending, started_at := none,
          completed_at := none, error := none, result := none,
          gen := s.nextGen },
      queue := s.queue ++ [⟨g, id, u⟩],
      nextGen := s.nextGen + 1 } := by
    simp [add_task, hrun]
  refine ⟨_, hadd, ?_, ?_, rfl⟩
  · exact alookup_aupdate_self _ _ _
  · simp only [statusOf, get_task_status]
    rw [alookup_aupdate_self]
    rfl

/-- Concrete state for the queue witnesses: one completed task "t" of group
"G" already recorded. -/
def sampleDoneState : QState :=
  { queue := [],
    tasks := [("t", { id := "t", group_id := "G", created_at := 0,
                      status := TaskStatus.completed, started_at := some 1,
                      completed_at := some 2, error := none, result := some 5,
                      gen := 0 })],
    current := [], running := true, nextGen := 1 }

/-- Witness for `submit_replaces_existing_task`: re-submitting id "t" over
its completed record yields a fresh Pending record. -/
theorem submit_replaces_existing_task_witness :
    ∃ s1, add_task sampleDoneState "G" (UnitOutcome.ok 9) "t" 10 =
        Except.ok s1 ∧
      alookup s1.tasks "t" = some
        { id := "t", group_id := "G", created_at := 10,
          status := TaskStatus.pending, started_at := none,
          completed_at := none, error := none, result := none, gen := 1 } ∧
      statusOf s1 "t" = some TaskStatus.pending ∧
      s1.queue = sampleDoneState.queue ++ [⟨"G", "t", UnitOutcome.ok 9⟩] :=
  submit_replaces_existing_task sampleDoneState "G" (UnitOutcome.ok 9) "t" 10
    { id := "t", group_id := "G", created_at := 0,
      status := TaskStatus.completed, started_at := some 1,
      completed_at := some 2, error := none, result := some 5, gen := 0 }
    rfl (by decide)

/-- C10: WaitFor on an id that was never registered returns absent
immediately — before the polling loop runs, so with zero sleep iterations —
for every timeout value (including none) and every loop bound. -/
theorem wait_for_unknown_task_immediate
    (s : QState) (task_id : String) (timeout : Option ℚ) (fuel : ℕ)
    (h : alookup s.tasks task_id = none) :
    wait_for_task s task_id timeout fuel = (none, 0) := by
  simp [wait_for_task, h]

/-- Witness for `wait_for_unknown_task_immediate`: an id never submitted to a
fresh queue returns absent with no waiting, with and without a timeout. -/
theorem wait_for_unknown_task_immediate_witness :
    wait_for_task initQ "ghost" none 7 = (none, 0) ∧
    wait_for_task initQ "ghost" (some 5) 3 = (none, 0) :=
  ⟨wait_for_unknown_task_immediate initQ "ghost" none 7 rfl,
   wait_for_unknown_task_immediate initQ "ghost" (some 5) 3 rfl⟩

/-- C8: once Shutdown has begun, every Submit fails with the "closed"
condition; and a unit still running when the grace period elapses has its
worker forcibly cancelled, which records the unit's task Failed with the
cancellation reason (the record is kept, not dropped). -/
theorem shutdown_closes_submissions_and_cancels_inflight :
    (∀ (s : QState) (g : String) (u : UnitOutcome) (id : String) (now : ℚ),
        add_task (shutdown s) g u id now =
          Except.error "Queue service has been shut down") ∧
    (∀ (s : QState) (g : String) (now : ℚ) (fl : InFlight) (t : QueuedTask),
        alookup s.current g = some fl →
        alookup s.tasks fl.task_id = some t → t.gen = fl.gen →
        alookup (cancelWorker s g now).1.tasks fl.task_id =
            some (finishTask t UnitOutcome.cancelled now) ∧
        statusOf (cancelWorker s g now).1 fl.task_id =
            some TaskStatus.failed ∧
        (alookup (cancelWorker s g now).1.tasks fl.task_id).map
            (fun x => x.error) = some (some "Task was cancelled")) := by
  constructor
  · intro s g u id now
    simp [add_task, shutdown]
  · intro s g now fl t hcur ht hgen
    have htasks : (cancelWorker s g now).1.tasks =
        aupdate s.tasks fl.task_id (finishTask t UnitOutcome.cancelled now) := by
      simp [cancelWorker, resolveCurrent, hcur, ht, hgen]
    refine ⟨?_, ?_, ?_⟩
    · rw [htasks, alookup_aupdate_self]
    · simp only [statusOf, get_task_status, htasks]
      rw [alookup_aupdate_self]
      rfl
    · rw [htasks, alookup_aupdate_self]
      rfl

/-- Concrete state for the cancellation witness: task "t" of group "G" is
Processing and its unit is in flight for the group's worker. -/
def sampleInFlightState : QState :=
  { queue := [],
    tasks := [("t", { id := "t", group_id := "G", created_at := 0,
                      status := TaskStatus.processing, started_at := some 1,
                      completed_at := none, error := none, result := none,
                      gen := 0 })],
    current := [("G", ⟨"t", 0, UnitOutcome.ok 7⟩)],
    running := true, nextGen := 1 }

/-- Witness for `shutdown_closes_submissions_and_cancels_inflight`: a Submit
after Shutdown fails closed, and cancelling the worker of
`sampleInFlightState` records task "t" Failed with the cancellation reason. -/
theorem shutdown_closes_submissions_and_cancels_inflight_witness :
    add_task (shutdown initQ) "G" (UnitOutcome.ok 1) "x" 0 =
      Except.error "Queue service has been shut down" ∧
    statusOf (cancelWorker sampleInFlightState "G" 9).1 "t" =
      some TaskStatus.failed ∧
    (alookup (cancelWorker sampleInFlightState "G" 9).1.tasks "t").map
      (fun x => x.error) = some (some "Task was cancelled") := by
  have h2 := shutdown_closes_submissions_and_cancels_inflight.2
    sampleInFlightState "G" 9 ⟨"t", 0, UnitOutcome.ok 7⟩
    { id := "t", group_id := "G", created_at := 0,
      status := TaskStatus.processing, started_at := some 1,
      completed_at := none, error := none, result := none, gen := 0 }
    (by decide) (by decide) rfl
  exact ⟨shutdown_closes_submissions_and_cancels_inflight.1 initQ "G"
           (UnitOutcome.ok 1) "x" 0,
         h2.2.1, h2.2.2⟩

/-- C5: units of a group execute strictly in submission order and a failing
unit neither crashes the worker nor blocks later units. A worker start picks
exactly the group's first queued unit, marking it Processing; finishing a
failed unit frees the group's worker, records the Failed status with the
error, and emits the failure event; and the three-unit scenario (second unit
raising "boom") ends with stats {total 3, completed 2, failed 1} and the
strictly ordered trace t1-start, t1-finish, t2-start, t2-fail, t3-start,
t3-finish. -/
theorem group_fifo_and_failure_isolation :
    (∀ (s : QState) (g : String) (now : ℚ) (item : QueueItem),
        s.running = true → alookup s.current g = none →
        frontFor s.queue g = some item →
        (processStart s g now).1.queue = popFor s.queue g ∧
        ∀ t, alookup s.tasks item.task_id = some t →
          (processStart s g now).2 = [Event.started item.task_id] ∧
          statusOf (processStart s g now).1 item.task_id =
            some TaskStatus.processing) ∧
    (∀ (s : QState) (g : String) (now : ℚ) (fl : InFlight) (m : String),
        alookup s.current g = some fl → fl.unit = UnitOutcome.err m →
        alookup (processFinish s g now).1.current g = none ∧
        (processFinish s g now).2 = [Event.finished fl.task_id false] ∧
        ∀ t, alookup s.tasks fl.task_id = some t → t.gen = fl.gen →
          statusOf (processFinish s g now).1 fl.task_id =
            some TaskStatus.failed ∧
          (alookup (processFinish s g now).1.tasks fl.task_id).map
            (fun x => x.error) = some (some m)) ∧
    (get_group_stats
        (applyOps initQ
          [QOp.submit "G" "t1" (UnitOutcome.ok 1) 0,
           QOp.submit "G" "t2" (UnitOutcome.err "boom") 0,
           QOp.submit "G" "t3" (UnitOutcome.ok 3) 0,
           QOp.wstart "G" 1, QOp.wfinish "G" 2,
           QOp.wstart "G" 3, QOp.wfinish "G" 4,
           QOp.wstart "G" 5, QOp.wfinish "G" 6]).1 "G" =
      { total := 3, pending := 0, processing := 0, completed := 2,
        failed := 1, queue_size := 0 } ∧
     (applyOps initQ
          [QOp.submit "G" "t1" (UnitOutcome.ok 1) 0,
           QOp.submit "G" "t2" (UnitOutcome.err "boom") 0,
           QOp.submit "G" "t3" (UnitOutcome.ok 3) 0,
           QOp.wstart "G" 1, QOp.wfinish "G" 2,
           QOp.wstart "G" 3, QOp.wfinish "G" 4,
           QOp.wstart "G" 5, QOp.wfinish "G" 6]).2 =
       [Event.submitted "t1", Event.submitted "t2", Event.submitted "t3",
        Event.started "t1", Event.finished "t1" true,
        Event.started "t2", Event.finished "t2" false,
        Event.started "t3", Event.finished "t3" true]) := by
  refine ⟨?_, ?_, by decide, by decide⟩
  · intro s g now item hrun hidle hfront
    constructor
    · cases ht : alookup s.tasks item.task_id <;>
        simp [processStart, hrun, hidle, hfront, ht]
    · intro t ht
      constructor
      · simp [processStart, hrun, hidle, hfront, ht]
      · have : (processStart s g now).1.tasks =
            aupdate (popFor s.queue g |> fun q => { s with queue := q }).tasks
              item.task_id
              { t with status := TaskStatus.processing,
                       started_at := some now } := by
          simp [processStart, hrun, hidle, hfront, ht]
        simp only [statusOf, get_task_status, this]
        rw [alookup_aupdate_self]
        rfl
  · intro s g now fl m hcur hu
    have hres : processFinish s g now = resolveCurrent s g fl.unit now := by
      simp [processFinish, hcur]
    refine ⟨?_, ?_, ?_⟩
    · rw [hres]
      simp only [resolveCurrent, hcur]
      exact alookup_filterout_key _ _
    · rw [hres]
      simp [resolveCurrent, hcur, hu, UnitOutcome.isOk]
    · intro t ht hgen
      have htasks : (processFinish s g now).1.tasks =
          aupdate s.tasks fl.task_id (finishTask t fl.unit now) := by
        rw [hres]
        simp [resolveCurrent, hcur, ht, hgen]
      constructor
      · simp only [statusOf, get_task_status, htasks]
        rw [alookup_aupdate_self]
        simp [finishTask, hu]
      · rw [htasks, alookup_aupdate_self]
        simp [finishTask, hu]

/-- Witness for `group_fifo_and_failure_isolation`: the FIFO-start clause on
a one-item queue and the failure clause on an in-flight failing unit. -/
theorem group_fifo_and_failure_isolation_witness :
    (processStart
        { queue := [⟨"G", "t1", UnitOutcome.ok 1⟩],
          tasks := [("t1", { id := "t1", group_id := "G", created_at := 0,
                             status := TaskStatus.pending, started_at := none,
                             completed_at := none, error := none,
                             result := none, gen := 0 })],
          current := [], running := true, nextGen := 1 } "G" 1).2 =
      [Event.started "t1"] ∧
    statusOf (processFinish
        { queue := [],
          tasks := [("t2", { id := "t2", group_id := "G", created_at := 0,
                             status := TaskStatus.processing,
                             started_at := some 1, completed_at := none,
                             error := none, result := none, gen := 0 })],
          current := [("G", ⟨"t2", 0, UnitOutcome.err "boom"⟩)],
          running := true, nextGen := 1 } "G" 2).1 "t2" =
      some TaskStatus.failed := by
  have h1 := (group_fifo_and_failure_isolation.1
      { queue := [⟨"G", "t1", UnitOutcome.ok 1⟩],
        tasks := [("t1", { id := "t1", group_id := "G", created_at := 0,
                           status := TaskStatus.pending, started_at := none,
                           completed_at := none, error := none,
                           result := none, gen := 0 })],
        current := [], running := true, nextGen := 1 } "G" 1
      ⟨"G", "t1", UnitOutcome.ok 1⟩ rfl rfl (by decide)).2
      { id := "t1", group_id := "G", created_at := 0,
        status := TaskStatus.pending, started_at := none,
        completed_at := none, error := none, result := none, gen := 0 }
      (by decide)
  have h2 := (group_fifo_and_failure_isolation.2.1
      { queue := [],
        tasks := [("t2", { id := "t2", group_id := "G", created_at := 0,
                           status := TaskStatus.processing,
                           started_at := some 1, completed_at := none,
                           error := none, result := none, gen := 0 })],
        current := [("G", ⟨"t2", 0, UnitOutcome.err "boom"⟩)],
        running := true, nextGen := 1 } "G" 2
      ⟨"t2", 0, UnitOutcome.err "boom"⟩ "boom" (by decide) rfl).2.2
      { id := "t2", group_id := "G", created_at := 0,
        status := TaskStatus.processing, started_at := some 1,
        completed_at := none, error := none, result := none, gen := 0 }
      (by decide) rfl
  exact ⟨h1.1, h2.1⟩

/-! ## Task status lifecycle (claim C6)

A run of queue operations is modelled from `initQ`; the status recorded
under an id is observed after every step. -/

/-- Numeric rank of a status along the lifecycle. -/
def rank : TaskStatus → ℕ
  | TaskStatus.pending => 0
  | TaskStatus.processing => 1
  | TaskStatus.completed => 2
  | TaskStatus.failed => 2

/-- The forward transitions of the lifecycle:
Pending → Processing → (Completed or Failed). -/
def forwardEdge : TaskStatus → TaskStatus → Bool
  | TaskStatus.pending, TaskStatus.processing => true
  | TaskStatus.processing, TaskStatus.completed => true
  | TaskStatus.processing, TaskStatus.failed => true
  | _, _ => false

/-- One observation step is acceptable when, if a status is recorded both
before and after, it either stayed put or moved along a forward edge. -/
def stepOkB : Option TaskStatus → Option TaskStatus → Bool
  | some a, some b => decide (a = b) || forwardEdge a b
  | _, _ => true

/-- All states visited while applying the operations in order (including the
initial and final states). -/
def statesOf (s : QState) : List QOp → List QState
  | [] => [s]
  | op :: rest => s :: statesOf (applyOp s op).1 rest

/-- The status recorded under `id` at every visited state. -/
def trajectory (s : QState) (ops : List QOp) (id : String) :
    List (Option TaskStatus) :=
  (statesOf s ops).map (fun st => statusOf st id)

/-- The task ids used by the Submit operations of a run. -/
def submitIds : List QOp → List String
  | [] => []
  | QOp.submit _ id _ _ :: rest => id :: submitIds rest
  | _ :: rest => submitIds rest

/-- Ids of the units waiting in the FIFO. -/
def queuedIds (s : QState) : List String :=
  s.queue.map (fun i => i.task_id)

/-- Ids of the units currently in flight. -/
def currentIds (s : QState) : List String :=
  s.current.map (fun p => p.2.task_id)

/-- Invariant of reachable queue-service states (when no Submit reuses a live
id): registry keys are unique; every queued unit's id maps to a Pending
record; every in-flight unit's id maps to a Processing record of the fetched
generation; and no id occurs twice among queued and in-flight units. -/
structure Inv (s : QState) : Prop where
  tasks_keys_nodup : (akeys s.tasks).Nodup
  queued_pending : ∀ item ∈ s.queue, ∃ t,
    alookup s.tasks item.task_id = some t ∧ t.status = TaskStatus.pending
  current_processing : ∀ p ∈ s.current, ∃ t,
    alookup s.tasks p.2.task_id = some t ∧ t.gen = p.2.gen ∧
    t.status = TaskStatus.processing
  inflight_nodup : (queuedIds s ++ currentIds s).Nodup

/-- An operation is fresh in a state when, if it is a Submit, its id has no
record yet. -/
def freshOp (s : QState) : QOp → Prop
  | QOp.submit _ id _ _ => alookup s.tasks id = none
  | _ => True

theorem stepOkB_self (a : Option TaskStatus) : stepOkB a a = true := by
  cases a <;> simp [stepOkB]

theorem stepOkB_none_left (b : Option TaskStatus) : stepOkB none b = true := by
  cases b <;> rfl

theorem stepOkB_none_right (a : Option TaskStatus) : stepOkB a none = true := by
  cases a <;> rfl

theorem trajectory_head (s : QState) (ops : List QOp) (id : String) :
    (trajectory s ops id).head? = some (statusOf s id) := by
  cases ops <;> rfl

theorem trajectory_cons (s : QState) (op : QOp) (rest : List QOp) (id : String) :
    trajectory s (op :: rest) id =
      statusOf s id :: trajectory (applyOp s op).1 rest id := rfl

theorem popFor_sublist (q : List QueueItem) (g : String) :
    (popFor q g).Sublist q := by
  induction q with
  | nil => simp [popFor]
  | cons item rest ih =>
      by_cases h : item.group_id = g
      · simpa [popFor, h] using List.sublist_cons item rest
      · simp only [popFor, h, if_false]
        exact ih.cons₂ item

theorem frontFor_popFor_perm (q : List QueueItem) (g : String)
    (item : QueueItem) (h : frontFor q g = some item) :
    q.Perm (item :: popFor q g) := by
  induction q with
  | nil => simp [frontFor] at h
  | cons x rest ih =>
      by_cases hx : x.group_id = g
      · simp only [frontFor, hx, if_true] at h
        obtain rfl : x = item := by simpa using h
        simp [popFor, hx]
      · simp only [frontFor, hx, if_false] at h
        simp only [popFor, hx, if_false]
        exact ((ih h).cons x).trans (List.Perm.swap item x (popFor rest g))

theorem frontFor_mem (q : List QueueItem) (g : String) (item : QueueItem)
    (h : frontFor q g = some item) : item ∈ q :=
  (frontFor_popFor_perm q g item h).mem_iff.mpr (List.mem_cons_self _ _)

theorem aupdate_append_of_none {α : Type} (l : List (String × α)) (k : String)
    (v : α) (h : alookup l k = none) : aupdate l k v = l ++ [(k, v)] := by
  induction l with
  | nil => rfl
  | cons hd tl ih =>
      obtain ⟨a, b⟩ := hd
      by_cases hk : a = k
      · simp [alookup, hk] at h
      · simp only [alookup, hk, if_false] at h
        simp [aupdate, hk, ih h]

theorem mem_aupdate {α : Type} (l : List (String × α)) (k : String) (v : α)
    (x : String × α) (h : x ∈ aupdate l k v) : x = (k, v) ∨ x ∈ l := by
  induction l with
  | nil => simpa [aupdate] using h
  | cons hd tl ih =>
      obtain ⟨a, b⟩ := hd
      by_cases hk : a = k
      · simp only [aupdate, hk, if_true] at h
        rcases List.mem_cons.mp h with h1 | h1
        · exact Or.inl h1
        · exact Or.inr (List.mem_cons_of_mem _ h1)
      · simp only [aupdate, hk, if_false] at h
        rcases List.mem_cons.mp h with h1 | h1
        · exact Or.inr (h1 ▸ List.mem_cons_self _ _)
        · rcases ih h1 with h2 | h2
          · exact Or.inl h2
          · exact Or.inr (List.mem_cons_of_mem _ h2)

/-- Case analysis of `processStart`: a no-op; a skipped unit whose id is
unregistered (only the FIFO shrinks); or a full start updating the fetched
task to Processing and placing the unit in flight. -/
theorem processStart_spec (s : QState) (g : String) (now : ℚ) :
    processStart s g now = (s, []) ∨
    (∃ item, s.running = true ∧ alookup s.current g = none ∧
        frontFor s.queue g = some item ∧
        alookup s.tasks item.task_id = none ∧
        processStart s g now = ({ s with queue := popFor s.queue g }, [])) ∨
    (∃ item t, s.running = true ∧ alookup s.current g = none ∧
        frontFor s.queue g = some item ∧
        alookup s.tasks item.task_id = some t ∧
        processStart s g now =
          ({ s with queue := popFor s.queue g,
                    tasks := aupdate s.tasks item.task_id
                      { t with status := TaskStatus.processing,
                               started_at := some now },
                    current := aupdate s.current g
                      ⟨item.task_id, t.gen, item.unit⟩ },
           [Event.started item.task_id])) := by
  cases hr : s.running
  · exact Or.inl (by simp [processStart, hr])
  · rcases hc : alookup s.current g with _ | fl
    · rcases hf : frontFor s.queue g with _ | item
      · exact Or.inl (by simp [processStart, hr, hc, hf])
      · rcases ht : alookup s.tasks item.task_id with _ | t
        · exact Or.inr (Or.inl ⟨item, rfl, rfl, rfl, ht,
            by simp [processStart, hr, hc, hf, ht]⟩)
        · exact Or.inr (Or.inr ⟨item, t, rfl, rfl, rfl, ht,
            by simp [processStart, hr, hc, hf, ht]⟩)
    · exact Or.inl (by simp [processStart, hr, hc])

/-- Case analysis of `resolveCurrent`: a no-op when nothing is in flight for
the group; otherwise the in-flight entry is released and the registry record
is finalised exactly when it is still the object the worker fetched. -/
theorem resolveCurrent_spec (s : QState) (g : String) (u : UnitOutcome)
    (now : ℚ) :
    (alookup s.current g = none ∧ resolveCurrent s g u now = (s, [])) ∨
    (∃ fl, alookup s.current g = some fl ∧
      ((∃ t, alookup s.tasks fl.task_id = some t ∧ t.gen = fl.gen ∧
          resolveCurrent s g u now =
            ({ s with tasks := aupdate s.tasks fl.task_id (finishTask t u now),
                      current := s.current.filter (fun p => decide (p.1 ≠ g)) },
             [Event.finished fl.task_id u.isOk])) ∨
       (resolveCurrent s g u now =
            ({ s with
                current := s.current.filter (fun p => decide (p.1 ≠ g)) },
             [Event.finished fl.task_id u.isOk]) ∧
        ∀ t, alookup s.tasks fl.task_id = some t → t.gen ≠ fl.gen))) := by
  rcases hc : alookup s.current g with _ | fl
  · exact Or.inl ⟨rfl, by simp [resolveCurrent, hc]⟩
  · refine Or.inr ⟨fl, rfl, ?_⟩
    rcases ht : alookup s.tasks fl.task_id with _ | t
    · refine Or.inr ⟨by simp [resolveCurrent, hc, ht], ?_⟩
      intro t h
      simp at h
    · by_cases hg : t.gen = fl.gen
      · exact Or.inl ⟨t, rfl, hg, by simp [resolveCurrent, hc, ht, hg]⟩
      · refine Or.inr ⟨by simp [resolveCurrent, hc, ht, hg], ?_⟩
        intro t2 h2
        cases h2
        exact hg

theorem forwardEdge_finish (t : QueuedTask) (u : UnitOutcome) (now : ℚ) :
    forwardEdge TaskStatus.processing (finishTask t u now).status = true := by
  cases u <;> rfl

theorem statusOf_resolveCurrent_step (s : QState) (g : String)
    (u : UnitOutcome) (now : ℚ) (id : String) (hInv : Inv s) :
    stepOkB (statusOf s id) (statusOf (resolveCurrent s g u now).1 id) =
      true := by
  rcases resolveCurrent_spec s g u now with ⟨_, heq⟩ | ⟨fl, hc, hcase⟩
  · rw [heq]
    exact stepOkB_self _
  · rcases hcase with ⟨t, ht, hgen, heq⟩ | ⟨heq, _⟩
    · rw [heq]
      by_cases hid : fl.task_id = id
      · subst hid
        obtain ⟨t2, ht2, _, hst2⟩ :=
          hInv.current_processing (g, fl) (alookup_mem _ _ _ hc)
        have hte : some t = some t2 := ht.symm.trans ht2
        cases hte
        simp only [statusOf, get_task_status]
        rw [alookup_aupdate_self, ht]
        simp [stepOkB, hst2, forwardEdge_finish]
      · simp only [statusOf, get_task_status]
        rw [alookup_aupdate_ne _ _ _ _ hid]
        exact stepOkB_self _
    · rw [heq]
      exact stepOkB_self _

theorem statusOf_step (s : QState) (op : QOp) (id : String) (hInv : Inv s)
    (hfresh : freshOp s op) :
    stepOkB (statusOf s id) (statusOf (applyOp s op).1 id) = true := by
  cases op with
  | submit g tid u now =>
      simp only [freshOp] at hfresh
      cases hr : s.running
      · have he : add_task s g u tid now =
            Except.error "Queue service has been shut down" := by
          simp [add_task, hr]
        simp only [applyOp, he]
        exact stepOkB_self _
      · have hok : add_task s g u tid now = Except.ok { s with
            tasks := aupdate s.tasks tid
              { id := tid, group_id := g, created_at := now,
                status := TaskStatus.pending, started_at := none,
                completed_at := none, error := none, result := none,
                gen := s.nextGen },
            queue := s.queue ++ [⟨g, tid, u⟩],
            nextGen := s.nextGen + 1 } := by
          simp [add_task, hr]
        simp only [applyOp, hok]
        by_cases hid : tid = id
        · subst hid
          have hnone : statusOf s tid = none := by
            simp [statusOf, get_task_status, hfresh]
          rw [hnone]
          exact stepOkB_none_left _
        · simp only [statusOf, get_task_status]
          rw [alookup_aupdate_ne _ _ _ _ hid]
          exact stepOkB_self _
  | wstart g now =>
      rcases processStart_spec s g now with heq |
        ⟨item, hr, hc, hf, ht, heq⟩ | ⟨item, t, hr, hc, hf, ht, heq⟩
      · simp only [applyOp, heq]
        exact stepOkB_self _
      · simp only [applyOp, heq]
        exact stepOkB_self _
      · simp only [applyOp, heq]
        by_cases hid : item.task_id = id
        · subst hid
          obtain ⟨t2, ht2, hst2⟩ :=
            hInv.queued_pending item (frontFor_mem _ _ _ hf)
          have hte : some t = some t2 := ht.symm.trans ht2
          cases hte
          simp only [statusOf, get_task_status]
          rw [alookup_aupdate_self, ht]
          simp [stepOkB, hst2, forwardEdge]
        · simp only [statusOf, get_task_status]
          rw [alookup_aupdate_ne _ _ _ _ hid]
          exact stepOkB_self _
  | wfinish g now =>
      rcases hc : alookup s.current g with _ | fl
      · have heq : applyOp s (QOp.wfinish g now) = (s, []) := by
          simp [applyOp, processFinish, hc]
        simp only [heq]
        exact stepOkB_self _
      · have heq : applyOp s (QOp.wfinish g now) =
            resolveCurrent s g fl.unit now := by
          simp [applyOp, processFinish, hc]
        rw [heq]
        exact statusOf_resolveCurrent_step s g fl.unit now id hInv
  | wcancel g now =>
      have heq : applyOp s (QOp.wcancel g now) =
          resolveCurrent s g UnitOutcome.cancelled now := rfl
      rw [heq]
      exact statusOf_resolveCurrent_step s g UnitOutcome.cancelled now id hInv
  | clear og age now =>
      have heq : (applyOp s (QOp.clear og age now)).1.tasks =
          s.tasks.filter (fun p => !shouldClear p.2 og age now) := rfl
      rcases h2 : alookup (s.tasks.filter
          (fun p => !shouldClear p.2 og age now)) id with _ | t'
      · have hnone : statusOf (applyOp s (QOp.clear og age now)).1 id = none := by
          simp [statusOf, get_task_status, heq, h2]
        rw [hnone]
        exact stepOkB_none_right _
      · have h3 : alookup s.tasks id = some t' :=
          alookup_filter_some_of_nodup _ _ _ _ hInv.tasks_keys_nodup h2
        simp only [statusOf, get_task_status, heq]
        rw [h2, h3]
        exact stepOkB_self _
  | close =>
      exact stepOkB_self _
  | waitFor tid =>
      exact stepOkB_self _

theorem Inv_initQ : Inv initQ := by
  refine ⟨?_, ?_, ?_, ?_⟩ <;> simp [initQ, akeys, queuedIds, currentIds]

theorem queued_id_lookup_ne_none (s : QState) (hInv : Inv s) (x : String)
    (hx : x ∈ queuedIds s) : alookup s.tasks x ≠ none := by
  simp only [queuedIds, List.mem_map] at hx
  obtain ⟨item, hitem, rfl⟩ := hx
  obtain ⟨t, ht, _⟩ := hInv.queued_pending item hitem
  simp [ht]

theorem current_id_lookup_ne_none (s : QState) (hInv : Inv s) (x : String)
    (hx : x ∈ currentIds s) : alookup s.tasks x ≠ none := by
  simp only [currentIds, List.mem_map] at hx
  obtain ⟨p, hp, rfl⟩ := hx
  obtain ⟨t, ht, _, _⟩ := hInv.current_processing p hp
  simp [ht]

theorem Inv_submit (s : QState) (g tid : String) (u : UnitOutcome) (now : ℚ)
    (hInv : Inv s) (hfresh : alookup s.tasks tid = none) :
    Inv (applyOp s (QOp.submit g tid u now)).1 := by
  cases hr : s.running
  · have he : add_task s g u tid now =
        Except.error "Queue service has been shut down" := by
      simp [add_task, hr]
    simp only [applyOp, he]
    exact hInv
  · have hok : add_task s g u tid now = Except.ok { s with
        tasks := aupdate s.tasks tid
          { id := tid, group_id := g, created_at := now,
            status := TaskStatus.pending, started_at := none,
            completed_at := none, error := none, result := none,
            gen := s.nextGen },
        queue := s.queue ++ [⟨g, tid, u⟩],
        nextGen := s.nextGen + 1 } := by
      simp [add_task, hr]
    simp only [applyOp, hok]
    constructor
    · exact akeys_aupdate_nodup _ _ _ hInv.tasks_keys_nodup
    · intro item hitem
      rcases List.mem_append.mp hitem with hold | hnew
      · obtain ⟨t, ht, hst⟩ := hInv.queued_pending item hold
        have hne : tid ≠ item.task_id := by
          intro he
          rw [he] at hfresh
          rw [hfresh] at ht
          cases ht
        exact ⟨t, by rw [alookup_aupdate_ne _ _ _ _ hne]; exact ht, hst⟩
      · have heq : item = ⟨g, tid, u⟩ := by simpa using hnew
        subst heq
        exact ⟨_, alookup_aupdate_self _ _ _, rfl⟩
    · intro p hp
      obtain ⟨t, ht, hg2, hst⟩ := hInv.current_processing p hp
      have hne : tid ≠ p.2.task_id := by
        intro he
        rw [he] at hfresh
        rw [hfresh] at ht
        cases ht
      exact ⟨t, by rw [alookup_aupdate_ne _ _ _ _ hne]; exact ht, hg2, hst⟩
    · show ((s.queue ++ [(⟨g, tid, u⟩ : QueueItem)]).map
        (fun i : QueueItem => i.task_id) ++ currentIds s).Nodup
      rw [List.map_append]
      rw [List.append_assoc]
      show (queuedIds s ++ (tid :: currentIds s)).Nodup
      rw [List.nodup_middle, List.nodup_cons]
      refine ⟨?_, hInv.inflight_nodup⟩
      intro hmem
      rcases List.mem_append.mp hmem with h1 | h1
      · exact queued_id_lookup_ne_none s hInv tid h1 hfresh
      · exact current_id_lookup_ne_none s hInv tid h1 hfresh

theorem Inv_wstart (s : QState) (g : String) (now : ℚ) (hInv : Inv s) :
    Inv (applyOp s (QOp.wstart g now)).1 := by
  rcases processStart_spec s g now with heq |
    ⟨item, hr, hc, hf, ht, heq⟩ | ⟨item, t, hr, hc, hf, ht, heq⟩
  · simp only [applyOp, heq]
    exact hInv
  · -- skipped unit: only the FIFO shrinks
    simp only [applyOp, heq]
    refine ⟨hInv.tasks_keys_nodup, ?_, hInv.current_processing, ?_⟩
    · intro it hit
      exact hInv.queued_pending it ((popFor_sublist _ _).subset hit)
    · exact hInv.inflight_nodup.sublist
        (((popFor_sublist s.queue g).map _).append_right _)
  · -- full start
    simp only [applyOp, heq]
    have hmemitem : item ∈ s.queue := frontFor_mem _ _ _ hf
    have hqperm : List.Perm (queuedIds s)
        (item.task_id :: (popFor s.queue g).map (fun i => i.task_id)) := by
      have hp := (frontFor_popFor_perm s.queue g item hf).map
        (fun i : QueueItem => i.task_id)
      simpa [queuedIds] using hp
    have hnd := hInv.inflight_nodup
    have hqnodup : (queuedIds s).Nodup := (List.nodup_append.mp hnd).1
    have hdisj : (queuedIds s).Disjoint (currentIds s) :=
      (List.nodup_append.mp hnd).2.2
    have hpopnodup := hqperm.nodup hqnodup
    have htid_notin_pop : item.task_id ∉
        (popFor s.queue g).map (fun i : QueueItem => i.task_id) :=
      (List.nodup_cons.mp hpopnodup).1
    have htid_q : item.task_id ∈ queuedIds s := by
      simp only [queuedIds, List.mem_map]
      exact ⟨item, hmemitem, rfl⟩
    have htid_notin_cur : item.task_id ∉ currentIds s := hdisj htid_q
    constructor
    · exact akeys_aupdate_nodup _ _ _ hInv.tasks_keys_nodup
    · intro it hit
      have hit_mem : it ∈ s.queue := (popFor_sublist _ _).subset hit
      obtain ⟨t2, ht2, hst2⟩ := hInv.queued_pending it hit_mem
      have hne : item.task_id ≠ it.task_id := by
        intro he
        apply htid_notin_pop
        rw [he]
        exact List.mem_map_of_mem _ hit
      exact ⟨t2, by rw [alookup_aupdate_ne _ _ _ _ hne]; exact ht2, hst2⟩
    · intro p hp
      rcases mem_aupdate _ _ _ _ hp with hnew | hold
      · subst hnew
        refine ⟨_, alookup_aupdate_self s.tasks item.task_id
          { t with status := TaskStatus.processing,
                   started_at := some now }, rfl, rfl⟩
      · obtain ⟨t2, ht2, hg2, hst2⟩ := hInv.current_processing p hold
        have hne : item.task_id ≠ p.2.task_id := by
          intro he
          apply htid_notin_cur
          rw [he]
          exact List.mem_map_of_mem _ hold
        exact ⟨t2, by rw [alookup_aupdate_ne _ _ _ _ hne]; exact ht2, hg2, hst2⟩
    · -- permutation of the old id multiset
      have hcaup : aupdate s.current g ⟨item.task_id, t.gen, item.unit⟩ =
          s.current ++ [(g, (⟨item.task_id, t.gen, item.unit⟩ : InFlight))] :=
        aupdate_append_of_none _ _ _ hc
      show ((popFor s.queue g).map (fun i : QueueItem => i.task_id) ++
        (aupdate s.current g ⟨item.task_id, t.gen, item.unit⟩).map
          (fun p : String × InFlight => p.2.task_id)).Nodup
      rw [hcaup, List.map_append, ← List.append_assoc]
      have h1 : List.Perm (queuedIds s ++ currentIds s)
          (item.task_id :: ((popFor s.queue g).map
            (fun i : QueueItem => i.task_id) ++ currentIds s)) :=
        hqperm.append_right _
      have h2 : List.Perm
          (((popFor s.queue g).map (fun i : QueueItem => i.task_id) ++
              currentIds s) ++ [item.task_id])
          (item.task_id :: ((popFor s.queue g).map
            (fun i : QueueItem => i.task_id) ++ currentIds s)) :=
        List.perm_append_singleton _ _
      exact List.Perm.nodup (h1.trans h2.symm) hInv.inflight_nodup

theorem Inv_resolveCurrent (s : QState) (g : String) (u : UnitOutcome)
    (now : ℚ) (hInv : Inv s) : Inv (resolveCurrent s g u now).1 := by
  rcases resolveCurrent_spec s g u now with ⟨_, heq⟩ | ⟨fl, hc, hcase⟩
  · rw [heq]
    exact hInv
  · have hflmem : (g, fl) ∈ s.current := alookup_mem _ _ _ hc
    have hfl_cur : fl.task_id ∈ currentIds s := by
      simp only [currentIds, List.mem_map]
      exact ⟨(g, fl), hflmem, rfl⟩
    have hnd := hInv.inflight_nodup
    have hdisj : (queuedIds s).Disjoint (currentIds s) :=
      (List.nodup_append.mp hnd).2.2
    have hcnodup : (currentIds s).Nodup := (List.nodup_append.mp hnd).2.1
    have hsub : List.Sublist
        (queuedIds s ++ (s.current.filter (fun p => decide (p.1 ≠ g))).map
          (fun p : String × InFlight => p.2.task_id))
        (queuedIds s ++ currentIds s) :=
      ((List.filter_sublist s.current).map _).append_left _
    rcases hcase with ⟨t, ht, hgen, heq⟩ | ⟨heq, _⟩
    · rw [heq]
      constructor
      · exact akeys_aupdate_nodup _ _ _ hInv.tasks_keys_nodup
      · intro it hit
        obtain ⟨t2, ht2, hst2⟩ := hInv.queued_pending it hit
        have hne : fl.task_id ≠ it.task_id := by
          intro he
          have hq : it.task_id ∈ queuedIds s := by
            simp only [queuedIds, List.mem_map]
            exact ⟨it, hit, rfl⟩
          exact hdisj hq (he ▸ hfl_cur)
        exact ⟨t2, by rw [alookup_aupdate_ne _ _ _ _ hne]; exact ht2, hst2⟩
      · intro p hp
        have hp_mem : p ∈ s.current := (List.mem_filter.mp hp).1
        have hp_ne_g : p.1 ≠ g := by
          have := (List.mem_filter.mp hp).2
          simpa using this
        obtain ⟨t2, ht2, hg2, hst2⟩ := hInv.current_processing p hp_mem
        have hne : fl.task_id ≠ p.2.task_id := by
          intro he
          have hpe := List.inj_on_of_nodup_map
            (by simpa [currentIds] using hcnodup) hp_mem hflmem he.symm
          exact hp_ne_g (by rw [hpe])
        exact ⟨t2, by rw [alookup_aupdate_ne _ _ _ _ hne]; exact ht2, hg2, hst2⟩
      · exact hInv.inflight_nodup.sublist hsub
    · rw [heq]
      refine ⟨hInv.tasks_keys_nodup, hInv.queued_pending, ?_, ?_⟩
      · intro p hp
        exact hInv.current_processing p (List.mem_filter.mp hp).1
      · exact hInv.inflight_nodup.sublist hsub

theorem Inv_step (s : QState) (op : QOp) (hInv : Inv s)
    (hfresh : freshOp s op) : Inv (applyOp s op).1 := by
  cases op with
  | submit g tid u now =>
      simp only [freshOp] at hfresh
      exact Inv_submit s g tid u now hInv hfresh
  | wstart g now => exact Inv_wstart s g now hInv
  | wfinish g now =>
      rcases hc : alookup s.current g with _ | fl
      · have heq : applyOp s (QOp.wfinish g now) = (s, []) := by
          simp [applyOp, processFinish, hc]
        simp only [heq]
        exact hInv
      · have heq : applyOp s (QOp.wfinish g now) =
            resolveCurrent s g fl.unit now := by
          simp [applyOp, processFinish, hc]
        rw [heq]
        exact Inv_resolveCurrent s g fl.unit now hInv
  | wcancel g now =>
      exact Inv_resolveCurrent s g UnitOutcome.cancelled now hInv
  | clear og age now =>
      constructor
      · exact hInv.tasks_keys_nodup.sublist
          ((List.filter_sublist s.tasks).map _)
      · intro it hit
        obtain ⟨t, ht, hst⟩ := hInv.queued_pending it hit
        refine ⟨t, ?_, hst⟩
        exact alookup_filter_keep_of_nodup _ _ _ _ hInv.tasks_keys_nodup ht
          (by simp [shouldClear, terminalStatus, hst])
      · intro p hp
        obtain ⟨t, ht, hg2, hst⟩ := hInv.current_processing p hp
        refine ⟨t, ?_, hg2, hst⟩
        exact alookup_filter_keep_of_nodup _ _ _ _ hInv.tasks_keys_nodup ht
          (by simp [shouldClear, terminalStatus, hst])
      · exact hInv.inflight_nodup
  | close =>
      exact ⟨hInv.tasks_keys_nodup, hInv.queued_pending,
             hInv.current_processing, hInv.inflight_nodup⟩
  | waitFor tid => exact hInv

theorem alookup_resolveCurrent_none (s : QState) (g : String)
    (u : UnitOutcome) (now : ℚ) (id : String)
    (h : alookup s.tasks id = none) :
    alookup (resolveCurrent s g u now).1.tasks id = none := by
  rcases resolveCurrent_spec s g u now with ⟨_, heq⟩ | ⟨fl, hc, hcase⟩
  · rw [heq]
    exact h
  · rcases hcase with ⟨t, ht, hgen, heq⟩ | ⟨heq, _⟩
    · rw [heq]
      have hne : fl.task_id ≠ id := by
        intro he
        rw [he, h] at ht
        cases ht
      rw [alookup_aupdate_ne _ _ _ _ hne]
      exact h
    · rw [heq]
      exact h

theorem alookup_applyOp_none (s : QState) (op : QOp) (id : String)
    (h : alookup s.tasks id = none)
    (hnot : ∀ g u now, op ≠ QOp.submit g id u now) :
    alookup (applyOp s op).1.tasks id = none := by
  cases op with
  | submit g tid u now =>
      have hne : tid ≠ id := by
        intro he
        exact hnot g u now (by rw [he])
      cases hr : s.running
      · have he2 : add_task s g u tid now =
            Except.error "Queue service has been shut down" := by
          simp [add_task, hr]
        simp only [applyOp, he2]
        exact h
      · have hok : add_task s g u tid now = Except.ok { s with
            tasks := aupdate s.tasks tid
              { id := tid, group_id := g, created_at := now,
                status := TaskStatus.pending, started_at := none,
                completed_at := none, error := none, result := none,
                gen := s.nextGen },
            queue := s.queue ++ [⟨g, tid, u⟩],
            nextGen := s.nextGen + 1 } := by
          simp [add_task, hr]
        simp only [applyOp, hok]
        rw [alookup_aupdate_ne _ _ _ _ hne]
        exact h
  | wstart g now =>
      rcases processStart_spec s g now with heq |
        ⟨item, _, _, _, ht, heq⟩ | ⟨item, t, _, _, _, ht, heq⟩
      · simp only [applyOp, heq]
        exact h
      · simp only [applyOp, heq]
        exact h
      · simp only [applyOp, heq]
        have hne : item.task_id ≠ id := by
          intro he
          rw [he, h] at ht
          cases ht
        rw [alookup_aupdate_ne _ _ _ _ hne]
        exact h
  | wfinish g now =>
      rcases hc : alookup s.current g with _ | fl
      · have heq : applyOp s (QOp.wfinish g now) = (s, []) := by
          simp [applyOp, processFinish, hc]
        simp only [heq]
        exact h
      · have heq : applyOp s (QOp.wfinish g now) =
            resolveCurrent s g fl.unit now := by
          simp [applyOp, processFinish, hc]
        rw [heq]
        exact alookup_resolveCurrent_none s g fl.unit now id h
  | wcancel g now =>
      exact alookup_resolveCurrent_none s g UnitOutcome.cancelled now id h
  | clear og age now =>
      exact alookup_filter_none _ _ _ h
  | close => exact h
  | waitFor tid => exact h

theorem submitIds_cons_sublist (op : QOp) (rest : List QOp) :
    List.Sublist (submitIds rest) (submitIds (op :: rest)) := by
  cases op with
  | submit g tid u now =>
      simpa [submitIds] using List.sublist_cons tid (submitIds rest)
  | wstart g now => simp [submitIds]
  | wfinish g now => simp [submitIds]
  | wcancel g now => simp [submitIds]
  | clear og age now => simp [submitIds]
  | close => simp [submitIds]
  | waitFor tid => simp [submitIds]

theorem chain_forward_aux (ops : List QOp) :
    ∀ (s : QState) (id : String), Inv s →
      (submitIds ops).Nodup →
      (∀ i ∈ submitIds ops, alookup s.tasks i = none) →
      List.Chain' (fun a b => stepOkB a b = true) (trajectory s ops id) := by
  induction ops with
  | nil =>
      intro s id _ _ _
      simp [trajectory, statesOf]
  | cons op rest ih =>
      intro s id hInv hnd hall
      have hf : freshOp s op := by
        cases op with
        | submit g tid u now => exact hall tid (by simp [submitIds])
        | wstart g now => trivial
        | wfinish g now => trivial
        | wcancel g now => trivial
        | clear og age now => trivial
        | close => trivial
        | waitFor tid => trivial
      rw [trajectory_cons, List.chain'_cons']
      constructor
      · intro b hb
        rw [trajectory_head] at hb
        have hb2 : statusOf (applyOp s op).1 id = b := by simpa using hb
        rw [← hb2]
        exact statusOf_step s op id hInv hf
      · refine ih (applyOp s op).1 id (Inv_step s op hInv hf)
          (hnd.sublist (submitIds_cons_sublist op rest)) ?_
        intro i hi
        refine alookup_applyOp_none s op i
          (hall i ((submitIds_cons_sublist op rest).subset hi)) ?_
        intro g u now hop
        rw [hop] at hnd
        simp only [submitIds] at hnd
        exact (List.nodup_cons.mp hnd).1 hi

/-- C6 (amended): for every run of queue operations from a fresh service in
which no two Submits use the same task id, the status recorded under any id
moves only forward along Pending → Processing → (Completed or Failed): at
every step of the run it either stays, or follows a forward edge, and is
never reset backward. (A Submit reusing a live id replaces the record with a
fresh Pending task, which is the one backward reset the code permits —
see the counterexample.) -/
theorem task_status_transitions_forward (ops : List QOp) (id : String)
    (hnd : (submitIds ops).Nodup) :
    List.Chain' (fun a b => stepOkB a b = true) (trajectory initQ ops id) :=
  chain_forward_aux ops initQ id Inv_initQ hnd (fun i _ => rfl)

/-- Witness for `task_status_transitions_forward`: the lifecycle of task "t"
through submit, worker start and worker finish moves only forward. -/
theorem task_status_transitions_forward_witness :
    List.Chain' (fun a b => stepOkB a b = true)
      (trajectory initQ
        [QOp.submit "G" "t" (UnitOutcome.ok 1) 0, QOp.wstart "G" 1,
         QOp.wfinish "G" 2] "t") :=
  task_status_transitions_forward
    [QOp.submit "G" "t" (UnitOutcome.ok 1) 0, QOp.wstart "G" 1,
     QOp.wfinish "G" 2] "t" (by decide)

/-- Counterexample to C6 as stated: re-submitting a completed task id resets
the status recorded under that id from Completed back to Pending — a
backward transition. -/
theorem task_status_backward_on_resubmit :
    statusOf (applyOps initQ
      [QOp.submit "G" "t" (UnitOutcome.ok 1) 0, QOp.wstart "G" 1,
       QOp.wfinish "G" 2]).1 "t" = some TaskStatus.completed ∧
    statusOf (applyOps initQ
      [QOp.submit "G" "t" (UnitOutcome.ok 1) 0, QOp.wstart "G" 1,
       QOp.wfinish "G" 2, QOp.submit "G" "t" (UnitOutcome.ok 2) 3]).1 "t" =
      some TaskStatus.pending ∧
    stepOkB (some TaskStatus.completed) (some TaskStatus.pending) = false ∧
    rank TaskStatus.pending < rank TaskStatus.completed := by
  refine ⟨by decide, by decide, by decide, by decide⟩

end GraphitiSpec
